import Mathlib

/-!
# CG_Labs, EDAF80 assignment 1: the celestial-body scene graph

A shallow embedding of `src/EDAF80/CelestialBody.cpp` and of the traversal
`renderBody` of `src/EDAF80/assignment1.cpp`.

* Scalars. The C++ code computes in `float`; here the arithmetic is exact, over
  an arbitrary field `R`. The two transcendental functions used by
  `glm::rotate` are carried by a `Trig R` value; `realTrig` is the real cosine
  and sine.
* Matrices. `glm::mat4` is a 4 x 4 matrix used with the column-vector
  convention; `glm`'s `m[c][r]` is the entry in row `r` and column `c`, written
  `m r c` here, and `glm`'s `operator*` is the matrix product.
* Effects. `CelestialBody::render` mutates the body, issues draw requests and
  returns a matrix: the embedding returns the three of them.
* Pointers. A `CelestialBody*` is an address into a heap of bodies.
-/

namespace CGLabs

variable {R : Type} [Field R]

/-! ## glm -/

/-- The type `glm::mat4`. -/
abbrev Mat4 (R : Type) := Matrix (Fin 4) (Fin 4) R

/-- The type `glm::vec3`. -/
structure Vec3 (R : Type) where
  x : R
  y : R
  z : R

/-- The functions `cos` and `sin` that `glm::rotate` calls on its angle. -/
structure Trig (R : Type) where
  cos : R → R
  sin : R → R

/-- The real cosine and sine. -/
noncomputable def realTrig : Trig ℝ := ⟨Real.cos, Real.sin⟩

/-- The function `glm::rotate(m, angle, v)` of `glm/ext/matrix_transform.inl`.
The axis is taken as already normalised: every call in `CelestialBody::render`
passes a unit axis, on which `glm::normalize` is the identity. -/
def glm_rotate (g : Trig R) (m : Mat4 R) (angle : R) (v : Vec3 R) : Mat4 R :=
  let c := g.cos angle
  let s := g.sin angle
  let axis := v
  let temp : Vec3 R := ⟨(1 - c) * axis.x, (1 - c) * axis.y, (1 - c) * axis.z⟩
  let r00 := c + temp.x * axis.x
  let r01 := temp.x * axis.y + s * axis.z
  let r02 := temp.x * axis.z - s * axis.y
  let r10 := temp.y * axis.x - s * axis.z
  let r11 := c + temp.y * axis.y
  let r12 := temp.y * axis.z + s * axis.x
  let r20 := temp.z * axis.x + s * axis.y
  let r21 := temp.z * axis.y - s * axis.x
  let r22 := c + temp.z * axis.z
  Matrix.of fun i =>
    ![m i 0 * r00 + m i 1 * r01 + m i 2 * r02,
      m i 0 * r10 + m i 1 * r11 + m i 2 * r12,
      m i 0 * r20 + m i 1 * r21 + m i 2 * r22,
      m i 3]

/-- The function `glm::translate(m, v)`: the last column becomes
`m[0] * v[0] + m[1] * v[1] + m[2] * v[2] + m[3]`. -/
def glm_translate (m : Mat4 R) (v : Vec3 R) : Mat4 R :=
  Matrix.of fun i =>
    ![m i 0, m i 1, m i 2, m i 0 * v.x + m i 1 * v.y + m i 2 * v.z + m i 3]

/-- The function `glm::scale(m, v)`: the first three columns are scaled. -/
def glm_scale (m : Mat4 R) (v : Vec3 R) : Mat4 R :=
  Matrix.of fun i => ![m i 0 * v.x, m i 1 * v.y, m i 2 * v.z, m i 3]

/-! ## The matrices the specification names -/

/-- Rotation by `a` about the vertical (y) axis. -/
def Ry (g : Trig R) (a : R) : Mat4 R :=
  !![g.cos a, 0, g.sin a, 0;
     0, 1, 0, 0;
     -g.sin a, 0, g.cos a, 0;
     0, 0, 0, 1]

/-- Rotation by `a` about the forward (z) axis. -/
def Rz (g : Trig R) (a : R) : Mat4 R :=
  !![g.cos a, -g.sin a, 0, 0;
     g.sin a, g.cos a, 0, 0;
     0, 0, 1, 0;
     0, 0, 0, 1]

/-- Translation by `(x, y, z)`. -/
def T (x y z : R) : Mat4 R :=
  !![1, 0, 0, x;
     0, 1, 0, y;
     0, 0, 1, z;
     0, 0, 0, 1]

/-- The upper-left 3 x 3 block of a placement: its rotational component. -/
def rotationPart (m : Mat4 R) : Matrix (Fin 3) (Fin 3) R :=
  Matrix.of fun i j => m (Fin.castSucc i) (Fin.castSucc j)

/-- A point `(x, y, z)` in homogeneous coordinates. -/
def point (x y z : R) : Fin 4 → R := ![x, y, z, 1]

/-! ## Motion state and the celestial body -/

/-- The struct `SpinConfiguration`. -/
structure SpinConfiguration (R : Type) where
  axial_tilt : R
  speed : R
  rotation_angle : R

/-- The struct `OrbitConfiguration`. -/
structure OrbitConfiguration (R : Type) where
  radius : R
  inclination : R
  speed : R
  rotation_angle : R

/-- The class `CelestialBody`: the fields of `_body`, the scale of `_ring`, and
`_children`. `node` stands for the renderable node `_body.node` (its geometry,
texture and program); a child pointer is an address into the heap of bodies. -/
structure CelestialBody (R : Type) where
  spin : SpinConfiguration R
  orbit : OrbitConfiguration R
  scale : Vec3 R
  node : Nat
  ring_scale : R × R
  children : List Nat

/-- A request sent to an external drawing collaborator. -/
inductive DrawRequest (R : Type) where
  /-- The call `bonobo::renderBasis(thickness, length, view_projection, world)`. -/
  | basis (thickness length : R) (view_projection world : Mat4 R)
  /-- The call `node.render(view_projection, world)` on the node `n`. -/
  | node (n : Nat) (view_projection world : Mat4 R)

/-- The world matrix a draw request carries. -/
def DrawRequest.world : DrawRequest R → Mat4 R
  | DrawRequest.basis _ _ _ w => w
  | DrawRequest.node _ _ w => w

/-- What one call of `CelestialBody::render` leaves behind: the body after the
call, the draw requests it issued, in order, and the matrix it returns. -/
structure RenderResult (R : Type) where
  body : CelestialBody R
  draws : List (DrawRequest R)
  children_matrix : Mat4 R

/-- The method `CelestialBody::render`; `elapsed_time` is in microseconds. -/
def CelestialBody.render (g : Trig R) (self : CelestialBody R) (elapsed_time : ℤ)
    (view_projection parent_transform : Mat4 R) (show_basis : Bool) : RenderResult R :=
  let elapsed_time_s : R := (elapsed_time : R) / 1000000
  let spin : SpinConfiguration R :=
    { self.spin with rotation_angle := self.spin.rotation_angle + self.spin.speed * elapsed_time_s }
  let orbit : OrbitConfiguration R :=
    { self.orbit with
      rotation_angle := self.orbit.rotation_angle + self.orbit.speed * elapsed_time_s }
  let orbital_axis : Vec3 R := ⟨orbit.radius, 0, 0⟩
  let yaxis : Vec3 R := ⟨0, 1, 0⟩
  let rotation_y := glm_rotate g 1 spin.rotation_angle yaxis
  let zaxis : Vec3 R := ⟨0, 0, 1⟩
  let rotation_z := glm_rotate g 1 spin.axial_tilt zaxis
  let rotation_matrix := rotation_z * rotation_y
  let translation_matrix := glm_translate 1 orbital_axis
  let rotation_orbit_axis := glm_rotate g 1 orbit.rotation_angle yaxis
  let orbital_rotation := rotation_orbit_axis * translation_matrix
  let orbital_tilt := glm_rotate g 1 orbit.inclination zaxis * translation_matrix
  let _scaling_matrix := glm_scale 1 self.scale
  let world := parent_transform * orbital_rotation * orbital_tilt * rotation_matrix
  let children_matrix := parent_transform * orbital_rotation * orbital_tilt * rotation_z
  { body := { self with spin := spin, orbit := orbit }
    draws := (if show_basis then [DrawRequest.basis 1 2 view_projection world] else [])
      ++ [DrawRequest.node self.node view_projection world]
    children_matrix := children_matrix }

/-- The method `CelestialBody::add_child`. -/
def CelestialBody.add_child (self : CelestialBody R) (child : Nat) : CelestialBody R :=
  { self with children := self.children ++ [child] }

/-- The method `CelestialBody::get_children`. -/
def CelestialBody.get_children (self : CelestialBody R) : List Nat :=
  self.children

/-- The method `CelestialBody::set_orbit`. -/
def CelestialBody.set_orbit (self : CelestialBody R) (configuration : OrbitConfiguration R) :
    CelestialBody R :=
  { self with
    orbit :=
      { radius := configuration.radius
        inclination := configuration.inclination
        speed := configuration.speed
        rotation_angle := 0 } }

/-- The method `CelestialBody::set_scale`. -/
def CelestialBody.set_scale (self : CelestialBody R) (scale : Vec3 R) : CelestialBody R :=
  { self with scale := scale }

/-- The method `CelestialBody::set_spin`. -/
def CelestialBody.set_spin (self : CelestialBody R) (configuration : SpinConfiguration R) :
    CelestialBody R :=
  { self with
    spin :=
      { axial_tilt := configuration.axial_tilt
        speed := configuration.speed
        rotation_angle := 0 } }

/-- The world placement of the draw request of a body whose angles are already
advanced: `P * orbital_rotation * orbital_tilt * spin_matrix`, in the words of
the specification. -/
def worldPlacement (g : Trig R) (b : CelestialBody R) (P : Mat4 R) : Mat4 R :=
  P * (Ry g b.orbit.rotation_angle * T b.orbit.radius 0 0)
    * (Rz g b.orbit.inclination * T b.orbit.radius 0 0)
    * (Rz g b.spin.axial_tilt * Ry g b.spin.rotation_angle)

/-- The child placement of a body whose angles are already advanced:
`P * orbital_rotation * orbital_tilt * tilt_only`, in the words of the
specification. -/
def childPlacement (g : Trig R) (b : CelestialBody R) (P : Mat4 R) : Mat4 R :=
  P * (Ry g b.orbit.rotation_angle * T b.orbit.radius 0 0)
    * (Rz g b.orbit.inclination * T b.orbit.radius 0 0)
    * Rz g b.spin.axial_tilt

/-! ## The traversal of `assignment1.cpp` -/

/-- The struct `CelestialBodyRef`. The code never sets `body`. -/
structure CelestialBodyRef (R : Type) where
  body : Option Nat
  parent_transform : Mat4 R

/-- One call of `CelestialBody::render` as `renderBody` issues it: the body it
is called on, as it is before the call, and the four arguments. -/
structure RenderCall (R : Type) where
  planet : CelestialBody R
  elapsed_time : ℤ
  view_projection : Mat4 R
  parent_transform : Mat4 R
  show_basis : Bool

/-- The bodies that child pointers point to: a pointer is an index. -/
abbrev Heap (R : Type) := List (CelestialBody R)

/-- The loop `for (CelestialBody* i : children)` of `renderBody`; `call` is the
recursive call `renderBody(child, system, ...)`. A new reference holding
`parent_matrix` is pushed, the body `*i` is copied into the local `child`, and
`renderBody` runs on that local, which is dropped when the iteration ends; the
callee receives `system` by value, so its pops are not seen here. -/
def renderBody.children
    (call : CelestialBody R → List (CelestialBodyRef R) →
      Option (CelestialBody R × List (RenderCall R)))
    (heap : Heap R) (parent_matrix : Mat4 R) :
    List Nat → List (CelestialBodyRef R) → Option (List (CelestialBodyRef R) × List (RenderCall R))
  | [], system => some (system, [])
  | i :: rest, system =>
    let planet_ref : CelestialBodyRef R := ⟨none, parent_matrix⟩
    let system := planet_ref :: system
    match heap[i]? with
    | none => none
    | some child =>
      match call child system with
      | none => none
      | some (_, calls) =>
        match renderBody.children call heap parent_matrix rest system with
        | none => none
        | some (system, more) => some (system, calls ++ more)

/-- The function `renderBody`. `planet` is passed by reference: the body after
the call is returned, together with the render calls issued, in order. The
heap is only read: the one body a call writes is `planet`, which below the
root is the local copy `child`. The recursion depth is bounded by `fuel`;
`none` stands for a run that has no result (the stack is empty at
`system.top()`, a child pointer dangles, or the recursion does not end within
`fuel` nested calls). -/
def renderBody (g : Trig R) (heap : Heap R) :
    Nat → CelestialBody R → List (CelestialBodyRef R) → ℤ → Mat4 R → Bool →
      Option (CelestialBody R × List (RenderCall R))
  | 0, _, _, _, _, _ => none
  | fuel + 1, planet, system, delay_time, world_to_clip, show_the_basis =>
    if planet.get_children.length > 0 then
      match system.head? with
      | none => none
      | some cbody_ref =>
        let cbody_transform := cbody_ref.parent_transform
        let r := planet.render g delay_time world_to_clip cbody_transform show_the_basis
        let parent_matrix := r.children_matrix
        let children := r.body.get_children
        let system := system.tail
        match renderBody.children
            (fun child system =>
              renderBody g heap fuel child system delay_time world_to_clip show_the_basis)
            heap parent_matrix children system with
        | none => none
        | some (_, calls) =>
          some (r.body,
            ⟨planet, delay_time, world_to_clip, cbody_transform, show_the_basis⟩ :: calls)
    else
      match system.head? with
      | none => none
      | some cbody_ref =>
        let cbody_transform := cbody_ref.parent_transform
        let r := planet.render g delay_time world_to_clip cbody_transform show_the_basis
        some (r.body, [⟨planet, delay_time, world_to_clip, cbody_transform, show_the_basis⟩])

/-- The traversal of one frame, lines 327 to 334 of `main`: a stack holding one
reference with the root placement, then `renderBody` on the body at address
`earth`, which is passed by reference and so is updated in place: the body
returned is stored at `earth`. In `main` the root placement is
`glm::translate(glm::mat4(1.0f), glm::vec3(2, 0, 0))`. -/
def renderFrame (g : Trig R) (fuel : Nat) (heap : Heap R) (earth : Nat) (root_placement : Mat4 R)
    (delay_time : ℤ) (world_to_clip : Mat4 R) (show_the_basis : Bool) :
    Option (Heap R × List (RenderCall R)) :=
  match heap[earth]? with
  | none => none
  | some planet =>
    let earth_ref : CelestialBodyRef R := ⟨none, root_placement⟩
    let solar_system_stack := [earth_ref]
    match renderBody g heap fuel planet solar_system_stack delay_time world_to_clip
        show_the_basis with
    | none => none
    | some (planet, calls) => some (heap.set earth planet, calls)

/-- The frames of the main loop, one per elapsed time of the list, in order;
the heap after the last frame. -/
def renderFrames (g : Trig R) (fuel : Nat) (earth : Nat) (root_placement : Mat4 R)
    (world_to_clip : Mat4 R) (show_the_basis : Bool) : List ℤ → Heap R → Option (Heap R)
  | [], heap => some heap
  | delay_time :: later, heap =>
    match renderFrame g fuel heap earth root_placement delay_time world_to_clip
        show_the_basis with
    | none => none
    | some (heap, _) =>
      renderFrames g fuel earth root_placement world_to_clip show_the_basis later heap

/-! ## Trees of bodies -/

/-- The bodies below address `a` form a finite structure of depth at most `d`
with no dangling pointer: `a` holds a body and the same is true, one level
lower, of each of its children. -/
def WellFormed (heap : Heap R) : Nat → Nat → Prop
  | 0, _ => False
  | d + 1, a => ∃ b, heap[a]? = some b ∧ ∀ c ∈ b.children, WellFormed heap d c

/-- The addresses met when the child pointers are followed from `a`, parent
first, down to depth `d`; an address met along two paths is listed twice. -/
def preorder (heap : Heap R) : Nat → Nat → List Nat
  | 0, _ => []
  | d + 1, a =>
    match heap[a]? with
    | none => []
    | some b => a :: b.children.flatMap (preorder heap d)

/-- The body at address `a` is reachable from `root` along child pointers. -/
inductive Reach (heap : Heap R) (root : Nat) : Nat → Prop where
  | root : Reach heap root root
  | child {p c : Nat} {b : CelestialBody R} :
      Reach heap root p → heap[p]? = some b → c ∈ b.children → Reach heap root c

/-- The Scene Traversal of section 4.4 of the specification, as the list of its
visits, each an address with the render call made there: `Visit(node,
inbound_placement)` calls `update_and_render` on the node and then visits every
child with the child placement obtained. -/
def visits (g : Trig R) (heap : Heap R) (dt : ℤ) (vp : Mat4 R) (sb : Bool) :
    Nat → Nat → Mat4 R → List (Nat × RenderCall R)
  | 0, _, _ => []
  | d + 1, a, inbound =>
    match heap[a]? with
    | none => []
    | some b =>
      (a, ⟨b, dt, vp, inbound, sb⟩) ::
        b.children.flatMap fun c => visits g heap dt vp sb d c (b.render g dt vp inbound sb).children_matrix

/-! ## Concrete bodies -/

/-- A body with every angle, speed and the radius at 0, unit scale, node 0 and
no child. -/
def plainBody (R : Type) [Field R] : CelestialBody R :=
  { spin := ⟨0, 0, 0⟩
    orbit := ⟨0, 0, 0, 0⟩
    scale := ⟨1, 1, 1⟩
    node := 0
    ring_scale := (1, 1)
    children := [] }

/-- A root with two children, at addresses 1 and 2, that have one child each,
at addresses 3 and 4. -/
def familyScene (R : Type) [Field R] : Heap R :=
  [((plainBody R).add_child 1).add_child 2,
    (plainBody R).add_child 3,
    (plainBody R).add_child 4,
    plainBody R,
    plainBody R]

/-- A parent at address 0 with two freshly configured siblings: the one at
address 1 has spin speed 1 and orbit speed 2, the one at address 2 has spin
speed 3 and orbit speed 4; the parent has spin speed 1 and orbit speed 0. -/
def siblingScene (R : Type) [Field R] : Heap R :=
  [(((plainBody R).set_spin ⟨0, 1, 0⟩).add_child 1).add_child 2,
    ((plainBody R).set_spin ⟨0, 1, 0⟩).set_orbit ⟨0, 0, 2, 0⟩,
    ((plainBody R).set_spin ⟨0, 3, 0⟩).set_orbit ⟨0, 0, 4, 0⟩]

/-! ## glm builds the matrices the specification names -/

theorem glm_rotate_yaxis (g : Trig R) (a : R) : glm_rotate g 1 a ⟨0, 1, 0⟩ = Ry g a := by
  ext i j
  fin_cases i <;> fin_cases j <;> simp [glm_rotate, Ry, Matrix.vecHead, Matrix.vecTail]

theorem glm_rotate_zaxis (g : Trig R) (a : R) : glm_rotate g 1 a ⟨0, 0, 1⟩ = Rz g a := by
  ext i j
  fin_cases i <;> fin_cases j <;> simp [glm_rotate, Rz, Matrix.vecHead, Matrix.vecTail]

theorem glm_translate_one (v : Vec3 R) : glm_translate 1 v = T v.x v.y v.z := by
  ext i j
  fin_cases i <;> fin_cases j <;> simp [glm_translate, T, Matrix.vecHead, Matrix.vecTail]

theorem render_children_matrix (g : Trig R) (b : CelestialBody R) (dt : ℤ) (vp P : Mat4 R)
    (sb : Bool) :
    (b.render g dt vp P sb).children_matrix = childPlacement g (b.render g dt vp P sb).body P := by
  simp only [CelestialBody.render, childPlacement, glm_rotate_yaxis, glm_rotate_zaxis,
    glm_translate_one]

theorem render_draws (g : Trig R) (b : CelestialBody R) (dt : ℤ) (vp P : Mat4 R) (sb : Bool) :
    (b.render g dt vp P sb).draws
      = (if sb then [DrawRequest.basis 1 2 vp (worldPlacement g (b.render g dt vp P sb).body P)]
          else [])
        ++ [DrawRequest.node b.node vp (worldPlacement g (b.render g dt vp P sb).body P)] := by
  simp only [CelestialBody.render, worldPlacement, glm_rotate_yaxis, glm_rotate_zaxis,
    glm_translate_one]

/-! ## One call of `CelestialBody::render` -/

/-- C1: for every body, elapsed time and parent placement `P`, the draw requests
of `CelestialBody::render` (the optional basis, then the node of the body) carry
the world placement `P * orbital_rotation * orbital_tilt * spin_matrix`, where
`orbital_rotation = Ry(orbit angle) * T(radius, 0, 0)`,
`orbital_tilt = Rz(inclination) * T(radius, 0, 0)` and
`spin_matrix = Rz(axial_tilt) * Ry(spin angle)`, the tilt on the left of the
spin rotation, with the two angles as this call has advanced them. -/
theorem render_world_placement (g : Trig R) (b : CelestialBody R) (dt : ℤ) (vp P : Mat4 R)
    (sb : Bool) :
    (b.render g dt vp P sb).draws
      = (if sb then
          [DrawRequest.basis 1 2 vp
            (P * (Ry g (b.render g dt vp P sb).body.orbit.rotation_angle * T b.orbit.radius 0 0)
              * (Rz g b.orbit.inclination * T b.orbit.radius 0 0)
              * (Rz g b.spin.axial_tilt * Ry g (b.render g dt vp P sb).body.spin.rotation_angle))]
          else [])
        ++ [DrawRequest.node b.node vp
            (P * (Ry g (b.render g dt vp P sb).body.orbit.rotation_angle * T b.orbit.radius 0 0)
              * (Rz g b.orbit.inclination * T b.orbit.radius 0 0)
              * (Rz g b.spin.axial_tilt
                  * Ry g (b.render g dt vp P sb).body.spin.rotation_angle))] := by
  rw [render_draws]
  rfl

/-- C2: the matrix returned by `CelestialBody::render` is
`P * orbital_rotation * orbital_tilt * Rz(axial_tilt)`, with
`orbital_rotation = Ry(orbit angle) * T(radius, 0, 0)` and
`orbital_tilt = Rz(inclination) * T(radius, 0, 0)`, and a body that differs only
in `spin.rotation_angle` and `spin.speed` returns the same matrix for the same
elapsed time and parent placement. -/
theorem render_child_placement (g : Trig R) (b : CelestialBody R) (dt : ℤ) (vp P : Mat4 R)
    (sb : Bool) :
    (b.render g dt vp P sb).children_matrix
        = P * (Ry g (b.render g dt vp P sb).body.orbit.rotation_angle * T b.orbit.radius 0 0)
            * (Rz g b.orbit.inclination * T b.orbit.radius 0 0)
            * Rz g b.spin.axial_tilt
      ∧ ∀ speed angle : R,
          (CelestialBody.render g
              { b with spin := { b.spin with speed := speed, rotation_angle := angle } }
              dt vp P sb).children_matrix
            = (b.render g dt vp P sb).children_matrix := by
  constructor
  · rw [render_children_matrix]
    rfl
  · intro speed angle
    rfl

/-- C3: one call of `CelestialBody::render` with an elapsed time of `dt`
microseconds, that is `dt / 1000000` seconds, leaves `spin.rotation_angle` at
its previous value plus `spin.speed` times the seconds elapsed, and
`orbit.rotation_angle` at its previous value plus `orbit.speed` times the
seconds elapsed; the body after the call does not depend on the parent
placement, the view-projection or `show_basis`. It holds for every `dt`, in
particular for every `dt ≥ 0`. -/
theorem render_advances_angles (g : Trig R) (b : CelestialBody R) (dt : ℤ) (vp P : Mat4 R)
    (sb : Bool) :
    (b.render g dt vp P sb).body.spin.rotation_angle
        = b.spin.rotation_angle + b.spin.speed * ((dt : R) / 1000000)
      ∧ (b.render g dt vp P sb).body.orbit.rotation_angle
        = b.orbit.rotation_angle + b.orbit.speed * ((dt : R) / 1000000)
      ∧ ∀ (vp2 P2 : Mat4 R) (sb2 : Bool),
          (b.render g dt vp2 P2 sb2).body = (b.render g dt vp P sb).body :=
  ⟨rfl, rfl, fun _ _ _ => rfl⟩

/-- C6: whatever the body is, `set_spin` leaves `spin.rotation_angle` at 0 and
`spin.axial_tilt` and `spin.speed` at the given values, and `set_orbit` leaves
`orbit.rotation_angle` at 0 and `orbit.radius`, `orbit.inclination` and
`orbit.speed` at the given values; the same is true of a body whose angles
`render` has already advanced. -/
theorem set_spin_set_orbit_reset (g : Trig R) (b : CelestialBody R)
    (spin : SpinConfiguration R) (orbit : OrbitConfiguration R) (dt : ℤ) (vp P : Mat4 R)
    (sb : Bool) :
    ((b.set_spin spin).spin.rotation_angle = 0
        ∧ (b.set_spin spin).spin.axial_tilt = spin.axial_tilt
        ∧ (b.set_spin spin).spin.speed = spin.speed)
      ∧ ((b.set_orbit orbit).orbit.rotation_angle = 0
        ∧ (b.set_orbit orbit).orbit.radius = orbit.radius
        ∧ (b.set_orbit orbit).orbit.inclination = orbit.inclination
        ∧ (b.set_orbit orbit).orbit.speed = orbit.speed)
      ∧ (((b.render g dt vp P sb).body.set_spin spin).spin.rotation_angle = 0
        ∧ ((b.render g dt vp P sb).body.set_spin spin).spin.axial_tilt = spin.axial_tilt
        ∧ ((b.render g dt vp P sb).body.set_spin spin).spin.speed = spin.speed)
      ∧ (((b.render g dt vp P sb).body.set_orbit orbit).orbit.rotation_angle = 0
        ∧ ((b.render g dt vp P sb).body.set_orbit orbit).orbit.radius = orbit.radius
        ∧ ((b.render g dt vp P sb).body.set_orbit orbit).orbit.inclination = orbit.inclination
        ∧ ((b.render g dt vp P sb).body.set_orbit orbit).orbit.speed = orbit.speed) :=
  ⟨⟨rfl, rfl, rfl⟩, ⟨rfl, rfl, rfl, rfl⟩, ⟨rfl, rfl, rfl⟩, ⟨rfl, rfl, rfl, rfl⟩⟩

theorem render_zero_body (g : Trig R) (b : CelestialBody R) (vp P : Mat4 R) (sb : Bool) :
    (b.render g 0 vp P sb).body = b := by
  obtain ⟨⟨t, s, a⟩, ⟨r, i, os, oa⟩, sc, n, rs, ch⟩ := b
  simp [CelestialBody.render]

/-- C10: with an elapsed time of 0, `CelestialBody::render` leaves the body as
it was, both rotation angles and every configuration field, and still issues
the draw request for its node; a second call with elapsed time 0 and the same
arguments returns the same child placement and issues the same draw requests,
so draws with the same world placement. -/
theorem render_zero_elapsed (g : Trig R) (b : CelestialBody R) (vp P : Mat4 R) (sb : Bool) :
    (b.render g 0 vp P sb).body = b
      ∧ (∃ world, DrawRequest.node b.node vp world ∈ (b.render g 0 vp P sb).draws)
      ∧ ((b.render g 0 vp P sb).body.render g 0 vp P sb).body = b
      ∧ ((b.render g 0 vp P sb).body.render g 0 vp P sb).children_matrix
          = (b.render g 0 vp P sb).children_matrix
      ∧ ((b.render g 0 vp P sb).body.render g 0 vp P sb).draws
          = (b.render g 0 vp P sb).draws := by
  have h := render_zero_body g b vp P sb
  refine ⟨h, ?_, ?_, ?_, ?_⟩
  · rw [render_draws]
    exact ⟨_, List.mem_append_right _ (List.mem_singleton.2 rfl)⟩
  · rw [h, h]
  · rw [h]
  · rw [h]

/-! ## Scenarios over the real numbers -/

theorem Ry_zero : Ry realTrig 0 = 1 := by
  ext i j
  fin_cases i <;> fin_cases j <;> simp [Ry, realTrig, Matrix.vecHead, Matrix.vecTail]

theorem Rz_zero : Rz realTrig 0 = 1 := by
  ext i j
  fin_cases i <;> fin_cases j <;> simp [Rz, realTrig, Matrix.vecHead, Matrix.vecTail]

theorem T_zero : T (0 : R) 0 0 = 1 := by
  ext i j
  fin_cases i <;> fin_cases j <;> simp [T, Matrix.vecHead, Matrix.vecTail]

theorem tilted_orbit_origin (g : Trig R) (r i t : R) :
    (T r 0 0 * (Rz g i * T r 0 0) * Rz g t).mulVec (point 0 0 0)
      = point (r + r * g.cos i) (r * g.sin i) 0 := by
  ext k
  fin_cases k <;>
    simp [T, Rz, point, Matrix.mul_apply, Matrix.mulVec, Matrix.dotProduct, Fin.sum_univ_four,
      Matrix.vecHead, Matrix.vecTail] <;> ring

theorem children_matrix_origin (b : CelestialBody ℝ) (dt : ℤ) (vp P : Mat4 ℝ) (sb : Bool)
    (hs : b.orbit.speed = 0) (ha : b.orbit.rotation_angle = 0) :
    (b.render realTrig dt vp P sb).children_matrix.mulVec (point 0 0 0)
      = P.mulVec (point (b.orbit.radius + b.orbit.radius * Real.cos b.orbit.inclination)
          (b.orbit.radius * Real.sin b.orbit.inclination) 0) := by
  have h0 : (b.render realTrig dt vp P sb).body.orbit.rotation_angle = 0 := by
    simp [CelestialBody.render, hs, ha]
  have hrad : (b.render realTrig dt vp P sb).body.orbit.radius = b.orbit.radius := rfl
  have hi : (b.render realTrig dt vp P sb).body.orbit.inclination = b.orbit.inclination := rfl
  rw [render_children_matrix, childPlacement, h0, hrad, hi, Ry_zero, one_mul, Matrix.mul_assoc,
    Matrix.mul_assoc, ← Matrix.mul_assoc (T _ 0 0), ← Matrix.mulVec_mulVec, tilted_orbit_origin]
  rfl

/-- C7, amended: for a parent body with `orbit.radius = 2`, `orbit.speed = 0`
and `orbit.rotation_angle = 0`, for every elapsed time and every placement `P`
it receives, the child placement it returns maps the origin to `P` applied to
`(2 + 2 cos(inclination), 2 sin(inclination), 0)`: the radius translation enters
both the orbital rotation and the orbital tilt. No configuration of a child
enters. -/
theorem child_placement_origin (b : CelestialBody ℝ) (dt : ℤ) (vp P : Mat4 ℝ) (sb : Bool)
    (hr : b.orbit.radius = 2) (hs : b.orbit.speed = 0) (ha : b.orbit.rotation_angle = 0) :
    (b.render realTrig dt vp P sb).children_matrix.mulVec (point 0 0 0)
      = P.mulVec (point (2 + 2 * Real.cos b.orbit.inclination)
          (2 * Real.sin b.orbit.inclination) 0) := by
  rw [children_matrix_origin b dt vp P sb hs ha, hr]

/-- C7, witness: a parent of radius 2 and inclination 0 under the identity
placement. -/
theorem child_placement_origin_witness :
    (((plainBody ℝ).set_orbit ⟨2, 0, 0, 0⟩).render realTrig 1000000 1 1 false).children_matrix.mulVec
        (point 0 0 0)
      = (1 : Mat4 ℝ).mulVec (point (2 + 2 * Real.cos 0) (2 * Real.sin 0) 0) :=
  child_placement_origin ((plainBody ℝ).set_orbit ⟨2, 0, 0, 0⟩) 1000000 1 1 false rfl rfl rfl

/-- C7, counterexample: a parent with `orbit.radius = 2`, `orbit.speed = 0`,
`orbit.rotation_angle = 0` and inclination 0, under the identity placement: the
child placement it returns maps the origin to `(4, 0, 0)`, which is not the
identity applied to `(2, 0, 0)`. -/
theorem child_placement_origin_not_at_radius :
    ((plainBody ℝ).set_orbit ⟨2, 0, 0, 0⟩).orbit.radius = 2
      ∧ ((plainBody ℝ).set_orbit ⟨2, 0, 0, 0⟩).orbit.speed = 0
      ∧ ((plainBody ℝ).set_orbit ⟨2, 0, 0, 0⟩).orbit.rotation_angle = 0
      ∧ (((plainBody ℝ).set_orbit ⟨2, 0, 0, 0⟩).render realTrig 0 1 1 false).children_matrix.mulVec
          (point 0 0 0) = point 4 0 0
      ∧ (((plainBody ℝ).set_orbit ⟨2, 0, 0, 0⟩).render realTrig 0 1 1 false).children_matrix.mulVec
          (point 0 0 0) ≠ (1 : Mat4 ℝ).mulVec (point 2 0 0) := by
  have h := children_matrix_origin ((plainBody ℝ).set_orbit ⟨2, 0, 0, 0⟩) 0 1 1 false rfl rfl
  have h4 : (((plainBody ℝ).set_orbit ⟨2, 0, 0, 0⟩).render realTrig 0 1 1 false).children_matrix.mulVec
      (point 0 0 0) = point 4 0 0 := by
    rw [h, Matrix.one_mulVec]
    simp [CelestialBody.set_orbit, plainBody]
    norm_num
  refine ⟨rfl, rfl, rfl, h4, ?_⟩
  rw [h4, Matrix.one_mulVec]
  intro h
  have h1 := congrFun h 0
  simp [point] at h1

theorem worldPlacement_still (c : CelestialBody ℝ) (C : Mat4 ℝ) (hr : c.orbit.radius = 0)
    (hsa : c.spin.rotation_angle = 0) (hoa : c.orbit.rotation_angle = 0) :
    worldPlacement realTrig c C
      = C * (Rz realTrig c.orbit.inclination * Rz realTrig c.spin.axial_tilt) := by
  rw [worldPlacement, hr, hsa, hoa, Ry_zero, T_zero, mul_one, mul_one, mul_one, mul_one,
    Matrix.mul_assoc]

theorem render_body_still (g : Trig R) (c : CelestialBody R) (dt : ℤ) (vp P : Mat4 R)
    (sb : Bool) (hos : c.orbit.speed = 0) (hss : c.spin.speed = 0) :
    (c.render g dt vp P sb).body = c := by
  obtain ⟨⟨t, s, a⟩, ⟨r, i, os, oa⟩, sc, n, rs, ch⟩ := c
  simp only at hos hss
  subst hos hss
  simp [CelestialBody.render]

/-- C8, amended: let `C` be the child placement returned by a parent's render,
that is `P * orbital_rotation * orbital_tilt * Rz(axial_tilt)` of the parent.
A child with `orbit.speed = 0`, `spin.speed = 0`, `orbit.radius = 0`, both
rotation angles at 0 and, in addition, `spin.axial_tilt = 0` and
`orbit.inclination = 0`, rendered with `C` as its parent placement, is drawn
with the world placement `C`. -/
theorem child_reproduces_parent_frame (parent child : CelestialBody ℝ) (dt dt2 : ℤ)
    (vp vp2 P : Mat4 ℝ) (sb sb2 : Bool)
    (hos : child.orbit.speed = 0) (hss : child.spin.speed = 0) (hr : child.orbit.radius = 0)
    (hsa : child.spin.rotation_angle = 0) (hoa : child.orbit.rotation_angle = 0)
    (ht : child.spin.axial_tilt = 0) (hi : child.orbit.inclination = 0) :
    (parent.render realTrig dt vp P sb).children_matrix
        = P * (Ry realTrig (parent.render realTrig dt vp P sb).body.orbit.rotation_angle
                * T parent.orbit.radius 0 0)
            * (Rz realTrig parent.orbit.inclination * T parent.orbit.radius 0 0)
            * Rz realTrig parent.spin.axial_tilt
      ∧ (child.render realTrig dt2 vp2 (parent.render realTrig dt vp P sb).children_matrix
            sb2).draws
        = (if sb2 then
            [DrawRequest.basis 1 2 vp2 (parent.render realTrig dt vp P sb).children_matrix]
            else [])
          ++ [DrawRequest.node child.node vp2
              (parent.render realTrig dt vp P sb).children_matrix] := by
  constructor
  · rw [render_children_matrix]
    rfl
  · rw [render_draws, render_body_still realTrig child dt2 vp2 _ sb2 hos hss,
      worldPlacement_still child _ hr hsa hoa, ht, hi, Rz_zero, mul_one, mul_one]

/-- C8, witness: the plain body, whose speeds, radius and angles are all 0,
as the child of a parent of radius 2. -/
theorem child_reproduces_parent_frame_witness :
    ((plainBody ℝ).render realTrig 1000000 1
        (((plainBody ℝ).set_orbit ⟨2, 0, 0, 0⟩).render realTrig 1000000 1 1
          false).children_matrix false).draws
      = [DrawRequest.node 0 1
          (((plainBody ℝ).set_orbit ⟨2, 0, 0, 0⟩).render realTrig 1000000 1 1
            false).children_matrix] :=
  (child_reproduces_parent_frame ((plainBody ℝ).set_orbit ⟨2, 0, 0, 0⟩) (plainBody ℝ) 1000000
    1000000 1 1 1 false false rfl rfl rfl rfl rfl rfl rfl).2

/-- C8, counterexample: a child with `orbit.speed = 0`, `spin.speed = 0`,
`orbit.radius = 0` and both rotation angles at 0, whose axial tilt is `pi`,
under a parent of radius 2 rendered under the identity placement. With the
child placement `C` of the parent as its parent placement, the child's one draw
request carries `C * (Rz(0) * Rz(pi))`, which is not `C`. -/
theorem tilted_child_leaves_parent_frame :
    ((plainBody ℝ).set_spin ⟨Real.pi, 0, 0⟩).orbit.speed = 0
      ∧ ((plainBody ℝ).set_spin ⟨Real.pi, 0, 0⟩).spin.speed = 0
      ∧ ((plainBody ℝ).set_spin ⟨Real.pi, 0, 0⟩).orbit.radius = 0
      ∧ ((plainBody ℝ).set_spin ⟨Real.pi, 0, 0⟩).spin.rotation_angle = 0
      ∧ ((plainBody ℝ).set_spin ⟨Real.pi, 0, 0⟩).orbit.rotation_angle = 0
      ∧ (((plainBody ℝ).set_spin ⟨Real.pi, 0, 0⟩).render realTrig 1000000 1
            (((plainBody ℝ).set_orbit ⟨2, 0, 0, 0⟩).render realTrig 1000000 1 1
              false).children_matrix false).draws
          = [DrawRequest.node 0 1
              ((((plainBody ℝ).set_orbit ⟨2, 0, 0, 0⟩).render realTrig 1000000 1 1
                  false).children_matrix
                * (Rz realTrig 0 * Rz realTrig Real.pi))]
      ∧ (((plainBody ℝ).set_orbit ⟨2, 0, 0, 0⟩).render realTrig 1000000 1 1
            false).children_matrix * (Rz realTrig 0 * Rz realTrig Real.pi)
          ≠ (((plainBody ℝ).set_orbit ⟨2, 0, 0, 0⟩).render realTrig 1000000 1 1
              false).children_matrix := by
  refine ⟨rfl, rfl, rfl, rfl, rfl, ?_, ?_⟩
  · rw [render_draws, render_body_still realTrig _ 1000000 1 _ false rfl rfl,
      worldPlacement_still _ _ rfl rfl rfl]
    rfl
  · have hC : (((plainBody ℝ).set_orbit ⟨2, 0, 0, 0⟩).render realTrig 1000000 1 1
        false).children_matrix = T 2 0 0 * T 2 0 0 := by
      rw [render_children_matrix, render_body_still realTrig _ 1000000 1 _ false rfl rfl]
      simp only [childPlacement, CelestialBody.set_orbit, plainBody, Ry_zero, Rz_zero, one_mul,
        mul_one]
    rw [hC, Rz_zero, one_mul]
    intro h
    have h00 := congrFun (congrFun h 0) 0
    simp [T, Rz, realTrig, Matrix.mul_apply, Fin.sum_univ_four, Matrix.vecHead,
      Matrix.vecTail] at h00
    norm_num at h00

theorem render_fresh_quarter_turn (b : CelestialBody ℝ) (tilt incl x y : ℝ) (vp P : Mat4 ℝ)
    (sb : Bool) :
    (((b.set_spin ⟨tilt, Real.pi / 2, x⟩).set_orbit ⟨0, incl, 0, y⟩).render realTrig 1000000 vp P
        sb).body.spin.rotation_angle = Real.pi / 2
      ∧ (((b.set_spin ⟨tilt, Real.pi / 2, x⟩).set_orbit ⟨0, incl, 0, y⟩).render realTrig 1000000
          vp P sb).draws
        = (if sb then
            [DrawRequest.basis 1 2 vp
              (P * (Rz realTrig incl * Rz realTrig tilt * Ry realTrig (Real.pi / 2)))]
            else [])
          ++ [DrawRequest.node b.node vp
              (P * (Rz realTrig incl * Rz realTrig tilt * Ry realTrig (Real.pi / 2)))] := by
  have hs : (((b.set_spin ⟨tilt, Real.pi / 2, x⟩).set_orbit ⟨0, incl, 0, y⟩).render realTrig
      1000000 vp P sb).body.spin.rotation_angle = Real.pi / 2 := by
    simp [CelestialBody.render, CelestialBody.set_spin, CelestialBody.set_orbit]
  have ho : (((b.set_spin ⟨tilt, Real.pi / 2, x⟩).set_orbit ⟨0, incl, 0, y⟩).render realTrig
      1000000 vp P sb).body.orbit.rotation_angle = 0 := by
    simp [CelestialBody.render, CelestialBody.set_spin, CelestialBody.set_orbit]
  refine ⟨hs, ?_⟩
  have hw : worldPlacement realTrig
      (((b.set_spin ⟨tilt, Real.pi / 2, x⟩).set_orbit ⟨0, incl, 0, y⟩).render realTrig 1000000
        vp P sb).body P
      = P * (Rz realTrig incl * Rz realTrig tilt * Ry realTrig (Real.pi / 2)) := by
    rw [worldPlacement, hs, ho]
    show P * (Ry realTrig 0 * T 0 0 0) * (Rz realTrig incl * T 0 0 0)
      * (Rz realTrig tilt * Ry realTrig (Real.pi / 2)) = _
    rw [Ry_zero, T_zero, mul_one, mul_one, mul_one]
    simp only [Matrix.mul_assoc]
  rw [render_draws, hw]
  rfl

/-- C9, amended: a body freshly configured by `set_spin` and `set_orbit` with
`orbit.speed = 0`, `spin.speed = pi / 2` and `orbit.radius = 0`, whatever its
axial tilt, its inclination and the root placement `P` are: after one render
call with an elapsed time of one second its `spin.rotation_angle` is `pi / 2`
and it is drawn with the world placement
`P * (Rz(inclination) * Rz(axial_tilt) * Ry(pi / 2))`, so that the rotation
relative to `P` is the quarter-turn about the vertical axis, then the axial
tilt, then the inclination of the orbit. -/
theorem fresh_quarter_turn (b : CelestialBody ℝ) (tilt incl x y : ℝ) (vp P : Mat4 ℝ)
    (sb : Bool) :
    (((b.set_spin ⟨tilt, Real.pi / 2, x⟩).set_orbit ⟨0, incl, 0, y⟩).render realTrig 1000000 vp P
        sb).body.spin.rotation_angle = Real.pi / 2
      ∧ (((b.set_spin ⟨tilt, Real.pi / 2, x⟩).set_orbit ⟨0, incl, 0, y⟩).render realTrig 1000000
          vp P sb).draws
        = (if sb then
            [DrawRequest.basis 1 2 vp
              (P * (Rz realTrig incl * Rz realTrig tilt * Ry realTrig (Real.pi / 2)))]
            else [])
          ++ [DrawRequest.node b.node vp
              (P * (Rz realTrig incl * Rz realTrig tilt * Ry realTrig (Real.pi / 2)))] :=
  render_fresh_quarter_turn b tilt incl x y vp P sb

/-- C9, counterexample: the plain body configured with axial tilt 0, spin speed
`pi / 2`, radius 0, orbit speed 0 and inclination `pi`, rendered for one second
under the identity placement: its one draw request carries a world placement
whose upper-left 3 x 3 block is not the one of `Rz(0) * Ry(pi / 2)`. -/
theorem fresh_quarter_turn_not_tilt_only :
    ∃ world,
      ((((plainBody ℝ).set_spin ⟨0, Real.pi / 2, 0⟩).set_orbit ⟨0, Real.pi, 0, 0⟩).render realTrig
          1000000 1 1 false).draws = [DrawRequest.node 0 1 world]
        ∧ rotationPart world ≠ rotationPart (Rz realTrig 0 * Ry realTrig (Real.pi / 2)) := by
  refine ⟨_, (render_fresh_quarter_turn (plainBody ℝ) 0 Real.pi 0 0 1 1 false).2, ?_⟩
  intro h
  rw [one_mul] at h
  have h11 : (Rz realTrig Real.pi * Rz realTrig 0 * Ry realTrig (Real.pi / 2)) 1 1
      = (Rz realTrig 0 * Ry realTrig (Real.pi / 2)) 1 1 := congrFun (congrFun h 1) 1
  simp [Rz, Ry, realTrig, Matrix.mul_apply, Fin.sum_univ_four, Matrix.vecHead,
    Matrix.vecTail] at h11
  norm_num at h11

/-! ## The traversal -/

theorem render_children (g : Trig R) (b : CelestialBody R) (dt : ℤ) (vp P : Mat4 R) (sb : Bool) :
    (b.render g dt vp P sb).body.children = b.children := rfl

theorem flatMap_split {α β : Type} (f : α → List β) (v : β) :
    ∀ (cs : List α) (l1 l2 : List β), cs.flatMap f = l1 ++ v :: l2 →
      ∃ c ∈ cs, ∃ m1 m2, f c = m1 ++ v :: m2 ∧ ∀ u ∈ m1, u ∈ l1 := by
  intro cs
  induction cs with
  | nil =>
    intro l1 l2 h
    simp at h
  | cons c cs ih =>
    intro l1 l2 h
    rw [List.flatMap_cons, List.append_eq_append_iff] at h
    rcases h with ⟨m, h1, h2⟩ | ⟨m, h1, h2⟩
    · obtain ⟨c2, hc2, m1, m2, hf, hsub⟩ := ih m l2 h2
      refine ⟨c2, List.mem_cons_of_mem _ hc2, m1, m2, hf, ?_⟩
      intro u hu
      rw [h1]
      exact List.mem_append_right _ (hsub u hu)
    · cases m with
      | nil =>
        simp only [List.nil_append] at h2
        obtain ⟨c2, hc2, m1, m2, hf, hsub⟩ := ih [] l2 h2.symm
        refine ⟨c2, List.mem_cons_of_mem _ hc2, m1, m2, hf, ?_⟩
        intro u hu
        exact absurd (hsub u hu) (List.not_mem_nil u)
      | cons w m =>
        simp only [List.cons_append, List.cons.injEq] at h2
        refine ⟨c, List.mem_cons_self _ _, l1, m, ?_, fun u hu => hu⟩
        rw [h1, h2.1]

omit [Field R] in
theorem renderBody_children_loop
    (call : CelestialBody R → List (CelestialBodyRef R) →
      Option (CelestialBody R × List (RenderCall R)))
    (heap : Heap R) (M : Mat4 R) (f : Nat → List (RenderCall R)) :
    ∀ (cs : List Nat),
      (∀ c ∈ cs, ∃ b, heap[c]? = some b ∧
        ∀ system, ∃ b2, call b (⟨none, M⟩ :: system) = some (b2, f c)) →
      ∀ system, ∃ left,
        renderBody.children call heap M cs system = some (left, cs.flatMap f) := by
  intro cs
  induction cs with
  | nil =>
    intro _ system
    exact ⟨system, rfl⟩
  | cons c cs ih =>
    intro h system
    obtain ⟨b, hb, hcall⟩ := h c (List.mem_cons_self _ _)
    obtain ⟨b2, hb2⟩ := hcall system
    obtain ⟨left, hleft⟩ :=
      ih (fun c2 hc2 => h c2 (List.mem_cons_of_mem _ hc2)) (⟨none, M⟩ :: system)
    refine ⟨left, ?_⟩
    simp only [renderBody.children, hb, hb2, hleft, List.flatMap_cons]

theorem renderBody_eq_visits (g : Trig R) (heap : Heap R) (dt : ℤ) (vp : Mat4 R) (sb : Bool) :
    ∀ (d a : Nat) (b : CelestialBody R) (top : CelestialBodyRef R)
      (rest : List (CelestialBodyRef R)),
      WellFormed heap d a → heap[a]? = some b →
        renderBody g heap d b (top :: rest) dt vp sb
          = some ((b.render g dt vp top.parent_transform sb).body,
              (visits g heap dt vp sb d a top.parent_transform).map Prod.snd) := by
  intro d
  induction d with
  | zero =>
    intro a b top rest hwf
    exact absurd hwf (by simp [WellFormed])
  | succ d ih =>
    intro a b top rest hwf hb
    obtain ⟨b0, hb0, hkids⟩ := hwf
    rw [hb] at hb0
    cases Option.some.inj hb0
    by_cases hlen : b.get_children.length > 0
    · obtain ⟨left, hleft⟩ := renderBody_children_loop
        (fun child system => renderBody g heap d child system dt vp sb) heap
        (b.render g dt vp top.parent_transform sb).children_matrix
        (fun c => (visits g heap dt vp sb d c
          (b.render g dt vp top.parent_transform sb).children_matrix).map Prod.snd)
        b.children
        (by
          intro c hc
          have hwc := hkids c hc
          cases d with
          | zero => exact absurd hwc (by simp [WellFormed])
          | succ d =>
            obtain ⟨bc, hbc, hkc⟩ := hwc
            exact ⟨bc, hbc, fun system =>
              ⟨_, ih c bc ⟨none, _⟩ system ⟨bc, hbc, hkc⟩ hbc⟩⟩)
        rest
      simp only [renderBody, hlen, if_true, List.head?_cons, List.tail_cons,
        CelestialBody.get_children, render_children, visits, hb, List.map_cons,
        List.map_flatMap]
      rw [hleft, if_pos (by simpa [CelestialBody.get_children] using hlen)]
    · have hnil : b.children = [] := by
        simpa [CelestialBody.get_children] using hlen
      simp [renderBody, hlen, visits, hb, hnil]

theorem visits_addresses (g : Trig R) (heap : Heap R) (dt : ℤ) (vp : Mat4 R) (sb : Bool) :
    ∀ (d a : Nat) (P : Mat4 R),
      (visits g heap dt vp sb d a P).map Prod.fst = preorder heap d a := by
  intro d
  induction d with
  | zero =>
    intro a P
    rfl
  | succ d ih =>
    intro a P
    simp only [visits, preorder]
    cases heap[a]? with
    | none => rfl
    | some b => simp only [List.map_cons, List.map_flatMap, ih]

theorem visits_calls (g : Trig R) (heap : Heap R) (dt : ℤ) (vp : Mat4 R) (sb : Bool) :
    ∀ (d a : Nat) (P : Mat4 R), ∀ v ∈ visits g heap dt vp sb d a P,
      heap[v.1]? = some v.2.planet ∧ v.2.elapsed_time = dt ∧ v.2.view_projection = vp
        ∧ v.2.show_basis = sb := by
  intro d
  induction d with
  | zero =>
    intro a P v hv
    simp [visits] at hv
  | succ d ih =>
    intro a P v hv
    simp only [visits] at hv
    cases hb : heap[a]? with
    | none =>
      rw [hb] at hv
      simp at hv
    | some b =>
      rw [hb] at hv
      rcases List.mem_cons.1 hv with h | h
      · subst h
        exact ⟨hb, rfl, rfl, rfl⟩
      · obtain ⟨c, _, hc⟩ := List.mem_flatMap.1 h
        exact ih c _ v hc

theorem visits_parent_first (g : Trig R) (heap : Heap R) (dt : ℤ) (vp : Mat4 R) (sb : Bool) :
    ∀ (d a : Nat) (P : Mat4 R) (l1 : List (Nat × RenderCall R)) (v : Nat × RenderCall R)
      (l2 : List (Nat × RenderCall R)),
      visits g heap dt vp sb d a P = l1 ++ v :: l2 → l1 ≠ [] →
        ∃ u ∈ l1, v.1 ∈ u.2.planet.children
          ∧ v.2.parent_transform
            = (u.2.planet.render g dt vp u.2.parent_transform sb).children_matrix := by
  intro d
  induction d with
  | zero =>
    intro a P l1 v l2 h
    simp [visits] at h
  | succ d ih =>
    intro a P l1 v l2 h hne
    simp only [visits] at h
    cases hb : heap[a]? with
    | none =>
      rw [hb] at h
      simp at h
    | some b =>
      rw [hb] at h
      cases l1 with
      | nil => exact absurd rfl hne
      | cons w l1 =>
        simp only [List.cons_append, List.cons.injEq] at h
        obtain ⟨hw, hrest⟩ := h
        obtain ⟨c, hc, m1, m2, hf, hsub⟩ := flatMap_split _ v b.children l1 l2 hrest
        cases m1 with
        | nil =>
          refine ⟨w, List.mem_cons_self _ _, ?_⟩
          subst hw
          cases d with
          | zero => simp [visits] at hf
          | succ d =>
            simp only [visits] at hf
            cases hbc : heap[c]? with
            | none =>
              rw [hbc] at hf
              simp at hf
            | some bc =>
              rw [hbc] at hf
              simp only [List.nil_append, List.cons.injEq] at hf
              rw [← hf.1]
              exact ⟨hc, rfl⟩
        | cons x m1 =>
          obtain ⟨u, hu, hpar⟩ := ih c _ (x :: m1) v m2 hf (List.cons_ne_nil _ _)
          exact ⟨u, List.mem_cons_of_mem _ (hsub u hu), hpar⟩

omit [Field R] in
theorem Reach.head {heap : Heap R} {a c x : Nat} {b : CelestialBody R} (hb : heap[a]? = some b)
    (hc : c ∈ b.children) (h : Reach heap c x) : Reach heap a x := by
  induction h with
  | root => exact Reach.child Reach.root hb hc
  | child _ hp hq ih => exact Reach.child ih hp hq

omit [Field R] in
theorem preorder_reach (heap : Heap R) :
    ∀ (d a x : Nat), x ∈ preorder heap d a → Reach heap a x := by
  intro d
  induction d with
  | zero =>
    intro a x h
    simp [preorder] at h
  | succ d ih =>
    intro a x h
    simp only [preorder] at h
    cases hb : heap[a]? with
    | none =>
      rw [hb] at h
      simp at h
    | some b =>
      rw [hb] at h
      rcases List.mem_cons.1 h with h | h
      · subst h
        exact Reach.root
      · obtain ⟨c, hc, hx⟩ := List.mem_flatMap.1 h
        exact Reach.head hb hc (ih c x hx)

omit [Field R] in
theorem preorder_self (heap : Heap R) (d a : Nat) (h : WellFormed heap d a) :
    a ∈ preorder heap d a := by
  cases d with
  | zero => exact absurd h (by simp [WellFormed])
  | succ d =>
    obtain ⟨b, hb, _⟩ := h
    simp [preorder, hb]

omit [Field R] in
theorem preorder_closed (heap : Heap R) :
    ∀ (d a p c : Nat) (bp : CelestialBody R), WellFormed heap d a → p ∈ preorder heap d a →
      heap[p]? = some bp → c ∈ bp.children → c ∈ preorder heap d a := by
  intro d
  induction d with
  | zero =>
    intro a p c bp h
    exact absurd h (by simp [WellFormed])
  | succ d ih =>
    intro a p c bp hwf hp hbp hc
    obtain ⟨b, hb, hkids⟩ := hwf
    simp only [preorder, hb] at hp ⊢
    rcases List.mem_cons.1 hp with h | h
    · subst h
      rw [hb] at hbp
      cases Option.some.inj hbp
      exact List.mem_cons_of_mem _
        (List.mem_flatMap.2 ⟨c, hc, preorder_self heap d c (hkids c hc)⟩)
    · obtain ⟨c0, hc0, hp0⟩ := List.mem_flatMap.1 h
      exact List.mem_cons_of_mem _
        (List.mem_flatMap.2 ⟨c0, hc0, ih c0 p c bp (hkids c0 hc0) hp0 hbp hc⟩)

omit [Field R] in
theorem reach_preorder (heap : Heap R) (d a x : Nat) (hwf : WellFormed heap d a)
    (h : Reach heap a x) : x ∈ preorder heap d a := by
  induction h with
  | root => exact preorder_self heap d a hwf
  | child _ hp hq ih => exact preorder_closed heap d a _ _ _ hwf ih hp hq

omit [Field R] in
theorem WellFormed_le (heap : Heap R) :
    ∀ (d fuel a : Nat), d ≤ fuel → WellFormed heap d a → WellFormed heap fuel a := by
  intro d
  induction d with
  | zero =>
    intro fuel a _ h
    exact absurd h (by simp [WellFormed])
  | succ d ih =>
    intro fuel a hle h
    cases fuel with
    | zero => exact absurd hle (by omega)
    | succ fuel =>
      obtain ⟨b, hb, hkids⟩ := h
      exact ⟨b, hb, fun c hc => ih fuel c (by omega) (hkids c hc)⟩

omit [Field R] in
theorem preorder_le (heap : Heap R) :
    ∀ (d fuel a : Nat), d ≤ fuel → WellFormed heap d a →
      preorder heap fuel a = preorder heap d a := by
  intro d
  induction d with
  | zero =>
    intro fuel a _ h
    exact absurd h (by simp [WellFormed])
  | succ d ih =>
    intro fuel a hle h
    cases fuel with
    | zero => exact absurd hle (by omega)
    | succ fuel =>
      obtain ⟨b, hb, hkids⟩ := h
      simp only [preorder, hb, List.cons.injEq, true_and]
      simp only [List.flatMap]
      congr 1
      exact List.map_congr_left fun c hc => ih fuel c (by omega) (hkids c hc)

/-- C4: let the bodies below `root` form a finite tree: following child
pointers from `root` ends within depth `d` with no dangling pointer, and no
address is met twice, so every body is under one parent. Then `renderBody` on
the root body, with the root placement on top of the stack and a recursion
bound `fuel` of at least `d`, returns, and its
render calls are the calls of a list `visited` of addresses with calls in which
every body reachable from `root` appears exactly once, every call is made on
the body stored at its address with the elapsed time, view-projection and
`show_basis` of the frame, the first call is the root's with the root
placement, and every later call comes after a call on its parent and has, as
parent placement, the child placement that this call of its parent returns. -/
theorem renderBody_traversal (g : Trig R) (heap : Heap R) (d root : Nat) (b : CelestialBody R)
    (top : CelestialBodyRef R) (rest : List (CelestialBodyRef R)) (dt : ℤ) (vp : Mat4 R)
    (sb : Bool) (fuel : Nat) (hroot : heap[root]? = some b) (hwf : WellFormed heap d root)
    (htree : (preorder heap d root).Nodup) (hfuel : d ≤ fuel) :
    ∃ visited : List (Nat × RenderCall R),
      renderBody g heap fuel b (top :: rest) dt vp sb
          = some ((b.render g dt vp top.parent_transform sb).body, visited.map Prod.snd)
        ∧ (visited.map Prod.fst).Nodup
        ∧ (∀ a, a ∈ visited.map Prod.fst ↔ Reach heap root a)
        ∧ (∀ v ∈ visited, heap[v.1]? = some v.2.planet ∧ v.2.elapsed_time = dt
            ∧ v.2.view_projection = vp ∧ v.2.show_basis = sb)
        ∧ visited.head? = some (root, ⟨b, dt, vp, top.parent_transform, sb⟩)
        ∧ ∀ (l1 : List (Nat × RenderCall R)) (v : Nat × RenderCall R)
            (l2 : List (Nat × RenderCall R)), visited = l1 ++ v :: l2 → l1 ≠ [] →
            ∃ u ∈ l1, v.1 ∈ u.2.planet.children
              ∧ v.2.parent_transform
                = (u.2.planet.render g dt vp u.2.parent_transform sb).children_matrix := by
  have hwf2 := WellFormed_le heap d fuel root hfuel hwf
  have hpre := preorder_le heap d fuel root hfuel hwf
  refine ⟨visits g heap dt vp sb fuel root top.parent_transform,
    renderBody_eq_visits g heap dt vp sb fuel root b top rest hwf2 hroot, ?_, ?_,
    visits_calls g heap dt vp sb fuel root _, ?_,
    visits_parent_first g heap dt vp sb fuel root _⟩
  · rw [visits_addresses, hpre]
    exact htree
  · intro a
    rw [visits_addresses]
    exact ⟨preorder_reach heap fuel root a, reach_preorder heap fuel root a hwf2⟩
  · cases fuel with
    | zero => exact absurd hwf2 (by simp [WellFormed])
    | succ fuel => simp [visits, hroot]

/-- C4, witness: the root of `familyScene`, with two children that have a child
each, of depth 3, rendered for one second under the identity placement with a
recursion bound of 5. -/
theorem renderBody_traversal_witness :
    ∃ visited : List (Nat × RenderCall ℝ),
      renderBody realTrig (familyScene ℝ) 5 (((plainBody ℝ).add_child 1).add_child 2)
          [⟨none, 1⟩] 1000000 1 false
          = some (((((plainBody ℝ).add_child 1).add_child 2).render realTrig 1000000 1 1
              false).body, visited.map Prod.snd)
        ∧ (visited.map Prod.fst).Nodup
        ∧ (∀ a, a ∈ visited.map Prod.fst ↔ Reach (familyScene ℝ) 0 a)
        ∧ (∀ v ∈ visited, (familyScene ℝ)[v.1]? = some v.2.planet ∧ v.2.elapsed_time = 1000000
            ∧ v.2.view_projection = 1 ∧ v.2.show_basis = false)
        ∧ visited.head?
            = some (0, ⟨((plainBody ℝ).add_child 1).add_child 2, 1000000, 1, 1, false⟩)
        ∧ ∀ (l1 : List (Nat × RenderCall ℝ)) (v : Nat × RenderCall ℝ)
            (l2 : List (Nat × RenderCall ℝ)), visited = l1 ++ v :: l2 → l1 ≠ [] →
            ∃ u ∈ l1, v.1 ∈ u.2.planet.children
              ∧ v.2.parent_transform
                = (u.2.planet.render realTrig 1000000 1 u.2.parent_transform
                    false).children_matrix :=
  renderBody_traversal realTrig (familyScene ℝ) 3 0 (((plainBody ℝ).add_child 1).add_child 2)
    ⟨none, 1⟩ [] 1000000 1 false 5 rfl
    (by simp [WellFormed, familyScene, CelestialBody.add_child, plainBody])
    (by simp [preorder, familyScene, CelestialBody.add_child, plainBody])
    (by decide)

/-! ## Frames -/

theorem renderBody_body (g : Trig R) (heap : Heap R) (fuel : Nat) (planet p : CelestialBody R)
    (top : CelestialBodyRef R) (rest : List (CelestialBodyRef R)) (dt : ℤ) (vp : Mat4 R)
    (sb : Bool) (calls : List (RenderCall R))
    (h : renderBody g heap fuel planet (top :: rest) dt vp sb = some (p, calls)) :
    p = (planet.render g dt vp top.parent_transform sb).body := by
  cases fuel with
  | zero => simp [renderBody] at h
  | succ fuel =>
    simp only [renderBody] at h
    split at h
    · simp only [List.head?_cons] at h
      split at h
      · simp at h
      · simp only [Option.some.injEq, Prod.mk.injEq] at h
        exact h.1.symm
    · simp only [List.head?_cons, Option.some.injEq, Prod.mk.injEq] at h
      exact h.1.symm

theorem renderFrame_heap (g : Trig R) (fuel : Nat) (heap heap2 : Heap R) (earth : Nat)
    (P : Mat4 R) (dt : ℤ) (vp : Mat4 R) (sb : Bool) (calls : List (RenderCall R))
    (h : renderFrame g fuel heap earth P dt vp sb = some (heap2, calls)) :
    ∃ b, heap[earth]? = some b ∧ heap2 = heap.set earth (b.render g dt vp P sb).body := by
  cases hb : heap[earth]? with
  | none => simp [renderFrame, hb] at h
  | some b =>
    refine ⟨b, rfl, ?_⟩
    cases hr : renderBody g heap fuel b [⟨none, P⟩] dt vp sb with
    | none => simp [renderFrame, hb, hr] at h
    | some r =>
      obtain ⟨p, calls2⟩ := r
      simp only [renderFrame, hb, hr, Option.some.injEq, Prod.mk.injEq] at h
      rw [← h.1, renderBody_body g heap fuel b p ⟨none, P⟩ [] dt vp sb calls2 hr]

theorem renderFrames_stored (g : Trig R) (fuel earth : Nat) (P vp : Mat4 R) (sb : Bool) :
    ∀ (dts : List ℤ) (heap heap2 : Heap R),
      renderFrames g fuel earth P vp sb dts heap = some heap2 →
        ∀ i, i ≠ earth → heap2[i]? = heap[i]? := by
  intro dts
  induction dts with
  | nil =>
    intro heap heap2 h i _
    simp only [renderFrames, Option.some.injEq] at h
    rw [h]
  | cons dt dts ih =>
    intro heap heap2 h i hi
    simp only [renderFrames] at h
    cases hf : renderFrame g fuel heap earth P dt vp sb with
    | none =>
      rw [hf] at h
      simp at h
    | some r =>
      obtain ⟨heap1, calls⟩ := r
      rw [hf] at h
      obtain ⟨b, _, h1⟩ := renderFrame_heap g fuel heap heap1 earth P dt vp sb calls hf
      rw [ih heap1 heap2 h i hi, h1, List.getElem?_set, if_neg (Ne.symm hi)]

omit [Field R] in
theorem WellFormed_children (heap heap2 : Heap R)
    (hsame : ∀ (a : Nat) (b : CelestialBody R), heap[a]? = some b →
      ∃ b2 : CelestialBody R, heap2[a]? = some b2 ∧ b2.children = b.children) :
    ∀ (d a : Nat), WellFormed heap d a → WellFormed heap2 d a := by
  intro d
  induction d with
  | zero =>
    intro a h
    exact absurd h (by simp [WellFormed])
  | succ d ih =>
    intro a h
    obtain ⟨b, hb, hkids⟩ := h
    obtain ⟨b2, hb2, hch⟩ := hsame a b hb
    exact ⟨b2, hb2, fun c hc => ih c (hkids c (hch ▸ hc))⟩

theorem renderFrames_returns (g : Trig R) (fuel earth : Nat) (P vp : Mat4 R) (sb : Bool) :
    ∀ (dts : List ℤ) (heap : Heap R), WellFormed heap fuel earth →
      ∃ heap2, renderFrames g fuel earth P vp sb dts heap = some heap2 := by
  intro dts
  induction dts with
  | nil =>
    intro heap _
    exact ⟨heap, rfl⟩
  | cons dt dts ih =>
    intro heap hwf
    have hwf0 := hwf
    cases fuel with
    | zero => exact absurd hwf (by simp [WellFormed])
    | succ fuel =>
      obtain ⟨b, hb, _⟩ := hwf
      have hr := renderBody_eq_visits g heap dt vp sb (fuel + 1) earth b ⟨none, P⟩ [] hwf0 hb
      have hwf1 : WellFormed (heap.set earth (b.render g dt vp P sb).body) (fuel + 1) earth := by
        refine WellFormed_children heap _ ?_ (fuel + 1) earth hwf0
        intro a ba ha
        by_cases hae : earth = a
        · subst hae
          rw [hb] at ha
          cases Option.some.inj ha
          refine ⟨(b.render g dt vp P sb).body, ?_, rfl⟩
          rw [List.getElem?_set, if_pos rfl, if_pos]
          exact (List.getElem?_eq_some_iff.1 hb).1
        · exact ⟨ba, by rw [List.getElem?_set, if_neg hae, ha], rfl⟩
      obtain ⟨heap2, h2⟩ := ih _ hwf1
      refine ⟨heap2, ?_⟩
      simp only [renderFrames, renderFrame, hb, hr]
      exact h2

theorem renderFrames_root (g : Trig R) (fuel earth : Nat) (P vp : Mat4 R) (sb : Bool) :
    ∀ (dts : List ℤ) (heap heap2 : Heap R) (b : CelestialBody R),
      renderFrames g fuel earth P vp sb dts heap = some heap2 → heap[earth]? = some b →
        ∃ b2, heap2[earth]? = some b2
          ∧ b2.spin.speed = b.spin.speed ∧ b2.orbit.speed = b.orbit.speed
          ∧ b2.spin.rotation_angle
              = b.spin.rotation_angle + b.spin.speed * ((dts.sum : R) / 1000000)
          ∧ b2.orbit.rotation_angle
              = b.orbit.rotation_angle + b.orbit.speed * ((dts.sum : R) / 1000000) := by
  intro dts
  induction dts with
  | nil =>
    intro heap heap2 b h hb
    simp only [renderFrames, Option.some.injEq] at h
    subst h
    exact ⟨b, hb, rfl, rfl, by simp, by simp⟩
  | cons dt dts ih =>
    intro heap heap2 b h hb
    cases hf : renderFrame g fuel heap earth P dt vp sb with
    | none => simp [renderFrames, hf] at h
    | some r =>
      obtain ⟨heap1, calls⟩ := r
      simp only [renderFrames, hf] at h
      obtain ⟨b0, hb0, h1⟩ := renderFrame_heap g fuel heap heap1 earth P dt vp sb calls hf
      rw [hb] at hb0
      cases Option.some.inj hb0
      have hb1 : heap1[earth]? = some (b.render g dt vp P sb).body := by
        rw [h1, List.getElem?_set, if_pos rfl, if_pos (List.getElem?_eq_some_iff.1 hb).1]
      obtain ⟨b2, hb2, hss, hos, hsa, hoa⟩ := ih heap1 heap2 _ h hb1
      refine ⟨b2, hb2, hss, hos, ?_, ?_⟩
      · rw [hsa]
        simp only [CelestialBody.render, List.sum_cons]
        push_cast
        ring
      · rw [hoa]
        simp only [CelestialBody.render, List.sum_cons]
        push_cast
        ring

/-- C5, the code at a failing input: two frames of one and two seconds on
`siblingScene`, traversed from the parent with the root placement of `main`.
The frames return, and the stored siblings are what they were: their rotation
angles are still 0, although the sum of the elapsed times is 3 seconds and
their speeds are 1 and 2, and 3 and 4. The parent, which `renderBody` receives
by reference, has accumulated its spin angle: 3, for a spin speed of 1. -/
theorem sibling_angles_not_accumulated :
    ∃ heap2 : Heap ℝ,
      renderFrames realTrig 2 0 (glm_translate 1 ⟨2, 0, 0⟩) 1 false [1000000, 2000000]
          (siblingScene ℝ) = some heap2
        ∧ heap2[1]? = (siblingScene ℝ)[1]?
        ∧ heap2[2]? = (siblingScene ℝ)[2]?
        ∧ (∀ s, heap2[1]? = some s →
            s.spin.speed = 1 ∧ s.spin.rotation_angle = 0
              ∧ s.spin.rotation_angle ≠ s.spin.speed * (1 + 2)
              ∧ s.orbit.speed = 2 ∧ s.orbit.rotation_angle = 0
              ∧ s.orbit.rotation_angle ≠ s.orbit.speed * (1 + 2))
        ∧ (∀ s, heap2[2]? = some s →
            s.spin.speed = 3 ∧ s.spin.rotation_angle = 0
              ∧ s.spin.rotation_angle ≠ s.spin.speed * (1 + 2)
              ∧ s.orbit.speed = 4 ∧ s.orbit.rotation_angle = 0
              ∧ s.orbit.rotation_angle ≠ s.orbit.speed * (1 + 2))
        ∧ ∃ p, heap2[0]? = some p ∧ p.spin.speed = 1
            ∧ p.spin.rotation_angle = p.spin.speed * (1 + 2) := by
  obtain ⟨heap2, h⟩ := renderFrames_returns realTrig 2 0 (glm_translate 1 ⟨2, 0, 0⟩) 1 false
    [1000000, 2000000] (siblingScene ℝ)
    (by simp [WellFormed, siblingScene, CelestialBody.add_child, CelestialBody.set_spin,
      CelestialBody.set_orbit, plainBody])
  have h1 := renderFrames_stored realTrig 2 0 _ 1 false _ _ heap2 h 1 (by decide)
  have h2 := renderFrames_stored realTrig 2 0 _ 1 false _ _ heap2 h 2 (by decide)
  refine ⟨heap2, h, h1, h2, ?_, ?_, ?_⟩
  rotate_left 2
  · obtain ⟨p, hp, hss, _, hsa, _⟩ := renderFrames_root realTrig 2 0 _ 1 false _ _ heap2
      ((((plainBody ℝ).set_spin ⟨0, 1, 0⟩).add_child 1).add_child 2) h rfl
    refine ⟨p, hp, hss, ?_⟩
    rw [hsa, hss]
    simp only [CelestialBody.add_child, CelestialBody.set_spin, plainBody, List.sum_cons,
      List.sum_nil]
    norm_num
  · intro s hs
    rw [h1] at hs
    simp only [siblingScene, List.getElem?_cons_succ, List.getElem?_cons_zero,
      Option.some.injEq] at hs
    subst hs
    simp only [CelestialBody.set_spin, CelestialBody.set_orbit, plainBody]
    norm_num
  · intro s hs
    rw [h2] at hs
    simp only [siblingScene, List.getElem?_cons_succ, List.getElem?_cons_zero,
      Option.some.injEq] at hs
    subst hs
    simp only [CelestialBody.set_spin, CelestialBody.set_orbit, plainBody]
    norm_num

/-! ## The scale -/

theorem render_set_scale (g : Trig R) (b : CelestialBody R) (s : Vec3 R) (dt : ℤ)
    (vp P : Mat4 R) (sb : Bool) :
    ((b.set_scale s).render g dt vp P sb).draws = (b.render g dt vp P sb).draws
      ∧ ((b.set_scale s).render g dt vp P sb).children_matrix
          = (b.render g dt vp P sb).children_matrix := ⟨rfl, rfl⟩

theorem plainBody_world (s : Vec3 ℝ) :
    worldPlacement realTrig ((plainBody ℝ).set_scale s) 1 = 1 := by
  simp only [worldPlacement, CelestialBody.set_scale, plainBody, Ry_zero, Rz_zero, T_zero,
    mul_one]

/-- C11, the code at a failing input: the plain body after `set_scale` with
`(2, 2, 2)`, rendered with elapsed time 0 under the identity placement. Its one
draw request carries the identity matrix, the world placement itself, which is
the matrix the body with scale `(1, 1, 1)` is drawn with and is not the world
placement composed with `glm::scale` of `(2, 2, 2)`: `render` computes
`scaling_matrix` and does not use it. -/
theorem scale_not_applied :
    ((plainBody ℝ).set_scale ⟨2, 2, 2⟩).scale.x = 2
      ∧ (((plainBody ℝ).set_scale ⟨2, 2, 2⟩).render realTrig 0 1 1 false).draws
          = [DrawRequest.node 0 1 1]
      ∧ (((plainBody ℝ).set_scale ⟨1, 1, 1⟩).render realTrig 0 1 1 false).draws
          = [DrawRequest.node 0 1 1]
      ∧ (1 : Mat4 ℝ) ≠ 1 * glm_scale 1 ⟨2, 2, 2⟩ := by
  refine ⟨rfl, ?_, ?_, ?_⟩
  · rw [render_draws, render_zero_body, plainBody_world]
    rfl
  · rw [render_draws, render_zero_body, plainBody_world]
    rfl
  · intro h
    have h00 := congrFun (congrFun h 0) 0
    simp [glm_scale] at h00

end CGLabs
